import Mathlib

/-!
Verification development for the `media_inventory` repository.

The Python sources (`media_inventory.py`, `reorganize_media.py`,
`reorganize_subfolders.py`, `remove_duplicates.py`) are shallowly embedded
below.  Paths are modelled as plain strings with POSIX separators, the
filesystem as an explicit list of existing file paths (plus, where needed,
a list of existing directories), pandas rows as records whose cells are
either a string or a missing (`NaN`) value, and `os.path` helpers
(`join`, `basename`, `dirname`, `normpath`, `splitext`) as executable
Lean functions translated from the CPython `posixpath` implementations.
-/

namespace MediaInv

/-! ### Character/string utilities (CPython semantics) -/

/-- Split a character list at every occurrence of `c`, keeping empty
segments, like Python's `str.split(c)`. -/
def splitOnCharAux (c : Char) : List Char → List Char → List (List Char)
  | [], cur => [cur.reverse]
  | x :: xs, cur =>
    if x = c then cur.reverse :: splitOnCharAux c xs []
    else splitOnCharAux c xs (x :: cur)

def splitOnChar (c : Char) (l : List Char) : List (List Char) :=
  splitOnCharAux c l []

/-- `subAt needle hay`: does `needle` occur at the head of `hay`? -/
def subAt : List Char → List Char → Bool
  | [], _ => true
  | _ :: _, [] => false
  | a :: as, b :: bs => a = b && subAt as bs

/-- `hasSub needle hay`: does `needle` occur anywhere in `hay`
(Python's `needle in hay` on strings)? -/
def hasSub (needle : List Char) : List Char → Bool
  | [] => subAt needle []
  | h :: t => subAt needle (h :: t) || hasSub needle t

def strHasSub (hay needle : String) : Bool :=
  hasSub needle.toList hay.toList

/-- Python's `str.startswith` / Lean's `String.startsWith`, implemented
over the character list so that it reduces in the kernel. -/
def strStartsWith (s pre : String) : Bool :=
  subAt pre.toList s.toList

/-- Python's `str.endswith` / Lean's `String.endsWith`. -/
def strEndsWith (s suf : String) : Bool :=
  subAt suf.toList.reverse s.toList.reverse

/-- `sep.join(parts)` / `String.intercalate`. -/
def joinWith (sep : String) : List String → String
  | [] => ""
  | [x] => x
  | x :: y :: xs => x ++ sep ++ joinWith sep (y :: xs)

def isAsciiSpace (c : Char) : Bool :=
  c = ' ' || c = '\t' || c = '\n' || c = '\x0d' || c = '\x0b' || c = '\x0c'

/-- Python's `str.strip()` restricted to ASCII whitespace. -/
def pyStrip (s : String) : String :=
  ⟨((s.toList.dropWhile isAsciiSpace).reverse.dropWhile isAsciiSpace).reverse⟩

/-- Python's `str.lower()` for the ASCII range. -/
def pyLower (s : String) : String :=
  ⟨s.toList.map Char.toLower⟩

def allDigits (l : List Char) : Bool :=
  l.all Char.isDigit

def digitsToNat (l : List Char) : Nat :=
  l.foldl (fun acc c => acc * 10 + (c.toNat - '0'.toNat)) 0

/-- Zero-pad the decimal representation of `n` to width `w`. -/
def padNat (w n : Nat) : String :=
  let s := toString n
  ⟨List.replicate (w - s.length) '0'⟩ ++ s

/-! ### `posixpath` functions, translated from CPython -/

/-- `posixpath.join(a, b)`. -/
def pjoin (a b : String) : String :=
  if strStartsWith b "/" then b
  else if a = "" || strEndsWith a "/" then a ++ b
  else a ++ "/" ++ b

/-- `posixpath.basename(p)`: everything after the last slash. -/
def pbasename (p : String) : String :=
  ⟨(p.toList.reverse.takeWhile (fun c => c ≠ '/')).reverse⟩

/-- `posixpath.dirname(p)`: everything up to the last slash, with
trailing slashes stripped unless the result is all slashes. -/
def pdirname (p : String) : String :=
  let rev := p.toList.reverse
  let headRev := rev.dropWhile (fun c => c ≠ '/')
  let head := headRev.reverse
  if head ≠ [] ∧ head.any (fun c => c ≠ '/') then
    ⟨(head.reverse.dropWhile (fun c => c = '/')).reverse⟩
  else ⟨head⟩

/-- `posixpath.normpath(p)`: collapse `//`, `.` and `..` segments. -/
def normpath (p : String) : String :=
  if p = "" then "." else
  let slashes : Nat :=
    if strStartsWith p "//" ∧ ¬ strStartsWith p "///" then 2
    else if strStartsWith p "/" then 1 else 0
  let comps := (splitOnChar '/' p.toList).map (fun l => (⟨l⟩ : String))
  let newComps := comps.foldl
    (fun acc comp =>
      if comp = "" ∨ comp = "." then acc
      else if comp ≠ ".." ∨ (slashes = 0 ∧ acc = []) ∨ acc.getLast? = some ".." then
        acc ++ [comp]
      else acc.dropLast)
    ([] : List String)
  let joined := joinWith "/" newComps
  let out := ⟨List.replicate slashes '/'⟩ ++ joined
  if out = "" then "." else out

/-- `posixpath.splitext(p)`: split off the extension at the last dot of
the basename, unless the basename consists only of leading dots up to it. -/
def splitext (p : String) : String × String :=
  let l := p.toList
  let rev := l.reverse
  let baseRev := rev.takeWhile (fun c => c ≠ '/')
  let extRev := baseRev.takeWhile (fun c => c ≠ '.')
  if extRev.length = baseRev.length then (p, "")  -- no dot in basename
  else
    -- chars of the basename strictly before the last dot
    let beforeDot := (baseRev.drop (extRev.length + 1)).reverse
    if beforeDot.any (fun c => c ≠ '.') then
      (⟨l.take (l.length - extRev.length - 1)⟩, ⟨l.drop (l.length - extRev.length - 1)⟩)
    else (p, "")

/-! ### Dates -/

structure Date where
  y : Nat
  m : Nat
  d : Nat
  deriving DecidableEq, Repr

def isLeap (y : Nat) : Bool :=
  (y % 4 = 0 && y % 100 ≠ 0) || y % 400 = 0

def daysInMonth (y m : Nat) : Nat :=
  if m = 2 then (if isLeap y then 29 else 28)
  else if m = 4 ∨ m = 6 ∨ m = 9 ∨ m = 11 then 30
  else 31

/-- `datetime.strptime(s, "%Y-%m-%d")` modelled as returning the parsed
date on success: three dash-separated digit groups (at most 4/2/2 digits),
a year in `datetime`'s 1..9999 range, a valid month and day. -/
def parseDate (s : String) : Option Date :=
  match splitOnChar '-' s.toList with
  | [ys, ms, ds] =>
    if allDigits ys ∧ allDigits ms ∧ allDigits ds ∧
       ys ≠ [] ∧ ms ≠ [] ∧ ds ≠ [] ∧
       ys.length ≤ 4 ∧ ms.length ≤ 2 ∧ ds.length ≤ 2 then
      let y := digitsToNat ys
      let m := digitsToNat ms
      let d := digitsToNat ds
      if 1 ≤ y ∧ 1 ≤ m ∧ m ≤ 12 ∧ 1 ≤ d ∧ d ≤ daysInMonth y m then
        some ⟨y, m, d⟩
      else none
    else none
  | _ => none

/-- `date.strftime("%Y-%m-%d")`. -/
def fmtDate (dt : Date) : String :=
  padNat 4 dt.y ++ "-" ++ padNat 2 dt.m ++ "-" ++ padNat 2 dt.d

/-- Days since 0000-03-01 in the proleptic Gregorian calendar
(days-from-civil algorithm); valid for the parsed range `y ≥ 1`. -/
def daysFromCivil (dt : Date) : Nat :=
  let y := if dt.m ≤ 2 then dt.y - 1 else dt.y
  let era := y / 400
  let yoe := y - era * 400
  let mp := (dt.m + 9) % 12
  let doy := (153 * mp + 2) / 5 + dt.d - 1
  let doe := yoe * 365 + yoe / 4 - yoe / 100 + doy
  era * 146097 + doe

/-- `(d2 - d1).days` for `datetime` values at midnight. -/
def dayGap (d1 d2 : Date) : Int :=
  (daysFromCivil d2 : Int) - (daysFromCivil d1 : Int)

/-- `datetime` comparison (chronological; lexicographic on y, m, d). -/
def dateLt (a b : Date) : Bool :=
  a.y < b.y || (a.y = b.y && (a.m < b.m || (a.m = b.m && a.d < b.d)))

/-- Code-point comparison of strings, Python's `str` ordering. -/
def strLtChars : List Char → List Char → Bool
  | [], [] => false
  | [], _ :: _ => true
  | _ :: _, [] => false
  | a :: as, b :: bs => a.toNat < b.toNat || (a = b && strLtChars as bs)

def strLt (a b : String) : Bool :=
  strLtChars a.toList b.toList

/-- Python tuple ordering on `(datetime, str)` pairs, as `≤`. -/
def tupLe (a b : Date × String) : Bool :=
  dateLt a.1 b.1 || (a.1 = b.1 && (strLt a.2 b.2 || a.2 = b.2))

/-- Stable insertion preserving earlier equal elements, so that
`sortStable` agrees with Python's stable `list.sort()`. -/
def insertSorted (le : α → α → Bool) (x : α) : List α → List α
  | [] => [x]
  | y :: ys => if le y x then y :: insertSorted le x ys else x :: y :: ys

def sortStable (le : α → α → Bool) (l : List α) : List α :=
  l.foldl (fun acc x => insertSorted le x acc) []

/-! ### `reorganize_media.py` — `plan_file_moves` and `execute_moves`

A pandas cell is either a string or a missing (`NaN`) value; `pd.notna`
is `Cell.isStr`, and calling `.lower()` on a missing cell raises the
`AttributeError` that `plan_file_moves`'s `except` clause turns into an
`errors` entry.  The filesystem seen by `os.path.exists` is the list of
existing file paths `fs`, fixed for the whole planning pass (planning
creates no files).  `Photo Date` cells are modelled as already-parsed
dates (`pd.to_datetime(...).date()` on the well-formed dates the claims
exercise). -/

inductive Cell where
  | str (s : String)
  | na
  deriving DecidableEq, Repr

structure Row where
  filePath : String
  photoDate : Date
  dupStatus : Cell
  country : Cell
  city : Cell
  deriving DecidableEq, Repr

/-- A planned move `(source, target, status)`. -/
abbrev Move := String × String × String

structure PlanState where
  moves : List Move
  errors : List String
  counts : List (String × Nat)
  deriving DecidableEq, Repr

/-- The initial `status_counts` dict. -/
def initCounts : List (String × Nat) :=
  [("ok", 0), ("duplicate", 0), ("error", 0), ("skipped", 0)]

/-- `status_counts[k] = status_counts.get(k, 0) + 1` on an
insertion-ordered dict. -/
def bump (counts : List (String × Nat)) (k : String) : List (String × Nat) :=
  match counts with
  | [] => [(k, 1)]
  | (k', v) :: rest => if k' = k then (k', v + 1) :: rest else (k', v) :: bump rest k

def countsGet (counts : List (String × Nat)) (k : String) : Nat :=
  match counts with
  | [] => 0
  | (k', v) :: rest => if k' = k then v else countsGet rest k

/-- The date/location directory segment computed at
`reorganize_media.py` lines 66–76. -/
def dateDirSegment (row : Row) : String :=
  let base := fmtDate row.photoDate
  match row.city with
  | Cell.str c =>
    match row.country with
    | Cell.str k =>
      if pyLower (pyStrip k) ≠ "france" then
        base ++ "_" ++ pyStrip k ++ "_" ++ pyStrip c
      else base ++ "_" ++ pyStrip c
    | Cell.na => base ++ "_" ++ pyStrip c
  | Cell.na => base

/-- `target_dir = os.path.join(root_dir, year, date_str)` (line 79);
`str(photo_date.year)` is unpadded. -/
def targetDirOf (rootDir : String) (row : Row) : String :=
  pjoin (pjoin rootDir (toString row.photoDate.y)) (dateDirSegment row)

/-- The `while os.path.exists(target_path)` collision loop (lines
100–105): try `base_1.ext`, `base_2.ext`, … built from the *unchanged*
`filename`.  The candidates are pairwise distinct strings, so at most
`fs.length + 1` probes reach a free one; `fuel` makes that termination
bound explicit and is never exhausted when it starts above `fs.length`. -/
def resolveCollision (fs : List String) (targetDir filename : String) :
    Nat → Nat → String → String
  | 0, _, targetPath => targetPath
  | fuel + 1, counter, targetPath =>
    if targetPath ∈ fs then
      let pr := splitext filename
      let newFilename := pr.1 ++ "_" ++ toString counter ++ pr.2
      resolveCollision fs targetDir filename fuel (counter + 1) (pjoin targetDir newFilename)
    else targetPath

/-- One iteration of the `for _, row in df.iterrows()` loop of
`plan_file_moves` (lines 50–111). -/
def processRow (fs : List String) (rootDir : String) (st : PlanState) (row : Row) :
    PlanState :=
  match row.dupStatus with
  | Cell.na =>
    -- row['Duplicate Status'].lower() raises; caught at line 110
    { st with errors := st.errors ++
        ["Error processing " ++ row.filePath ++ ": 'float' object has no attribute 'lower'"] }
  | Cell.str s0 =>
    let ds := pyLower s0
    let counts1 := bump st.counts ds
    if ds = "duplicate" then { st with counts := counts1 }
    else if row.filePath ∉ fs then
      { st with counts := counts1,
                errors := st.errors ++ ["Source file not found: " ++ row.filePath] }
    else
      let targetDir := targetDirOf rootDir row
      let filename := pbasename row.filePath
      let targetPath := pjoin targetDir filename
      let sourceDir := normpath (pdirname row.filePath)
      let normTargetDir := normpath targetDir
      if sourceDir = normTargetDir then
        { st with counts := bump counts1 "skipped" }
      else
        let pr := if ds = "error" then
            let se := splitext filename
            (se.1 ++ "_dup" ++ se.2, pjoin targetDir (se.1 ++ "_dup" ++ se.2))
          else (filename, targetPath)
        let finalTarget := resolveCollision fs targetDir pr.1 (fs.length + 1) 1 pr.2
        { st with counts := counts1,
                  moves := st.moves ++ [(row.filePath, finalTarget, ds)] }

/-- `plan_file_moves(df, root_dir)` (lines 39–113). -/
def planFileMoves (fs : List String) (rootDir : String) (df : List Row) : PlanState :=
  df.foldl (processRow fs rootDir) ⟨[], [], initCounts⟩

/-- `shutil.move(source, target)` on the file-set model: the source path
disappears and the target path exists afterwards; a pre-existing target
file is silently replaced (POSIX `rename` semantics). -/
def moveModel (fs : List String) (source target : String) : List String :=
  let fs' := fs.erase source
  if target ∈ fs' then fs' else fs' ++ [target]

structure ExecState where
  fs : List String
  successful : Nat
  failed : Nat
  skipped : Nat
  errors : List String
  deriving DecidableEq, Repr

/-- One iteration of `execute_moves` in `reorganize_media.py`
(lines 126–150), in `--prod` mode (`dry_run=False`).  `os.makedirs`
is a no-op on the file-set model; `shutil.move` raises when the source
is missing, which the `except` clause records. -/
def execOneRM (st : ExecState) (mv : Move) : ExecState :=
  let (source, target, _) := mv
  if normpath (pdirname source) = normpath (pdirname target) then
    { st with skipped := st.skipped + 1 }
  else if source ∉ st.fs then
    { st with failed := st.failed + 1,
              errors := st.errors ++ ["Error moving " ++ source ++ ": file not found"] }
  else
    { st with fs := moveModel st.fs source target, successful := st.successful + 1 }

/-- `execute_moves(moves, dry_run=False)` from `reorganize_media.py`. -/
def executeMovesRM (fs : List String) (moves : List Move) : ExecState :=
  moves.foldl execOneRM ⟨fs, 0, 0, 0, []⟩

/-! ### `media_inventory.py` — `get_duplicate_status` (lines 398–411)

`file_registry` is a dict from file name to `{'sizes': set, 'count': int}`;
the dict and the size set are modelled as insertion-ordered lists (only
membership in `sizes` is ever read). -/

structure RegEntry where
  sizes : List Nat
  count : Nat
  deriving DecidableEq, Repr

abbrev Registry := List (String × RegEntry)

def regFind (reg : Registry) (name : String) : Option RegEntry :=
  match reg with
  | [] => none
  | (n, e) :: rest => if n = name then some e else regFind rest name

def regSet (reg : Registry) (name : String) (e : RegEntry) : Registry :=
  match reg with
  | [] => [(name, e)]
  | (n, e') :: rest =>
    if n = name then (n, e) :: rest else (n, e') :: regSet rest name e

def setAdd (s : List Nat) (x : Nat) : List Nat :=
  if x ∈ s then s else s ++ [x]

/-- `get_duplicate_status(filename, filesize, file_registry)`: returns
the status and the updated registry. -/
def getDuplicateStatus (filename : String) (filesize : Nat) (reg : Registry) :
    String × Registry :=
  match regFind reg filename with
  | none =>
    ("ok", regSet reg filename ⟨setAdd [] filesize, 1⟩)
  | some e =>
    if filesize ∈ e.sizes then
      ("duplicate", regSet reg filename { e with count := e.count + 1 })
    else
      ("error", regSet reg filename ⟨setAdd e.sizes filesize, e.count + 1⟩)

/-- The scan pass of `scan_directories`: statuses assigned to a sequence
of `(file_name, size_bytes)` pairs in scan order. -/
def scanStatuses (files : List (String × Nat)) : List String × Registry :=
  files.foldl (fun acc f =>
      let pr := getDuplicateStatus f.1 f.2 acc.2
      (acc.1 ++ [pr.1], pr.2))
    ([], [])

/-! ### `remove_duplicates.py` — `calculate_quick_hash` (lines 34–50)

The MD5 digest is determined by the byte string fed into it, so the
fingerprint is modelled by that byte string: the first `chunk_size`
bytes read, followed — only when `file_size > chunk_size * 2` — by the
last `chunk_size` bytes (`f.seek(-chunk_size, 2); f.read(chunk_size)`). -/

def quickHashInput (content : List Nat) (chunkSize : Nat) : List Nat :=
  let firstChunk := content.take chunkSize
  if content.length > chunkSize * 2 then
    firstChunk ++ content.drop (content.length - chunkSize)
  else firstChunk

/-! ### `reorganize_subfolders.py`

The `os.walk` enumerations are modelled by explicit inputs: the walk of
the source tree is a list of `(root, dirs, files)` entries, and the walk
of an individual folder is given by a function `walkF` from the folder
to its `(root, files)` entries.  Python's `empty_dirs` set is modelled
as a deduplicating list (its iteration order is unspecified in Python;
the model fixes insertion order, which no claim depends on). -/

/-- `directory_name.split('_', 1)` followed by `strptime`
(`parse_directory_name`, lines 20–30): `none` models the `(None, None)`
returns for names without an underscore or with an unparsable date
(prefix before the first underscore; the location is everything after
it). -/
def parseDirectoryName (s : String) : Option (Date × String) :=
  if (s.toList.takeWhile (fun c => c ≠ '_')).length = s.toList.length then
    none  -- no underscore: len(parts) == 1
  else
    match parseDate ⟨s.toList.takeWhile (fun c => c ≠ '_')⟩ with
    | some d =>
      some (d, ⟨s.toList.drop ((s.toList.takeWhile (fun c => c ≠ '_')).length + 1)⟩)
    | none => none

def assocAppend [DecidableEq κ] (l : List (κ × List α)) (k : κ) (v : α) :
    List (κ × List α) :=
  match l with
  | [] => [(k, [v])]
  | (k', vs) :: rest =>
    if k' = k then (k', vs ++ [v]) :: rest else (k', vs) :: assocAppend rest k v

def assocFind [DecidableEq κ] (l : List (κ × List α)) (k : κ) : List α :=
  match l with
  | [] => []
  | (k', vs) :: rest => if k' = k then vs else assocFind rest k

/-- The body of `find_subfolders_to_merge`'s inner loop (lines 37–42):
`subfolders.setdefault(date, []).append(os.path.join(root, dir_name))`
for directory names with a parsable date and a truthy location. -/
def registerDir (root : String) (acc : List (Date × List String)) (dirName : String) :
    List (Date × List String) :=
  match parseDirectoryName dirName with
  | some (d, loc) => if loc ≠ "" then assocAppend acc d (pjoin root dirName) else acc
  | none => acc

def findSubfoldersAux (walk : List (String × List String × List String))
    (acc : List (Date × List String)) : List (Date × List String) :=
  walk.foldl (fun a e => e.2.1.foldl (registerDir e.1) a) acc

/-- `find_subfolders_to_merge` (lines 32–43): group every directory whose
name parses to a date and a truthy (non-empty) location, keyed by date. -/
def findSubfoldersToMerge (walk : List (String × List String × List String)) :
    List (Date × List String) :=
  findSubfoldersAux walk []

def preferredLocations : List String :=
  ["Royan", "Niort", "Le Mont-Saint-Michel", "TintÃ©niac", "Saint-Malo",
   "Brest", "Barbatre", "Champagnole", "Geneve", "Jullouville", "Betton"]

/-- Target-folder selection in `plan_moves` (lines 52–60). -/
def selectTarget (folders : List String) : String :=
  match preferredLocations.findSome?
      (fun loc => folders.find? (fun f => strHasSub (pbasename f) loc)) with
  | some t => t
  | none =>
    match folders.find? (fun f => strHasSub (pbasename f) "_") with
    | some t => t
    | none => folders.headD ""

def setAddStr (s : List String) (x : String) : List String :=
  if x ∈ s then s else s ++ [x]

/-- The pass-1 inner walk of a merged folder (lines 63–68): every file
under `folder` is planned into `target` (no normpath filter in pass 1). -/
def mergeFilesP1 (walkF : String → List (String × List String))
    (folder target : String) : List Move :=
  (walkF folder).flatMap fun e => e.2.map fun f => (pjoin e.1 f, pjoin target f, target)

/-- `plan_moves(subfolders)` (lines 45–72). -/
def planMovesRS (walkF : String → List (String × List String))
    (subfolders : List (Date × List String)) : List Move × List String :=
  subfolders.foldl
    (fun acc item =>
      let folders := item.2
      if folders.length > 1 then
        let target := selectTarget folders
        folders.foldl
          (fun acc2 folder =>
            if folder ≠ target then
              (acc2.1 ++ mergeFilesP1 walkF folder target, setAddStr acc2.2 folder)
            else acc2)
          acc
      else acc)
    (([] : List Move), ([] : List String))

/-- The location-keyed grouping over the pass-1 move *targets*
(`reorganize_by_location`, lines 76–81). -/
def locGroups (moves : List Move) : List (String × List (Date × String)) :=
  moves.foldl
    (fun g mv =>
      let td := pdirname mv.2.1
      match parseDirectoryName (pbasename td) with
      | some (d, loc) => if loc ≠ "" then assocAppend g loc (d, td) else g
      | none => g)
    []

/-- The pass-2 inner walk (lines 92–98), which skips normpath-identical
source/target pairs. -/
def mergeFilesP2 (walkF : String → List (String × List String))
    (folder target : String) : List Move :=
  (walkF folder).flatMap fun e => e.2.filterMap fun f =>
    let sp := pjoin e.1 f
    let tp := pjoin target f
    if normpath sp ≠ normpath tp then some (sp, tp, target) else none

/-- One iteration of the `for i in range(1, len(dirs))` loop of
`reorganize_by_location` (lines 88–101): the state carries the mutable
`target_folder`, the accumulated `additional_moves` and the `empty_dirs`
set; the pair holds `(dirs[i-1], dirs[i])`. -/
def locStep (walkF : String → List (String × List String))
    (st : String × List Move × List String)
    (pr : (Date × String) × (Date × String)) : String × List Move × List String :=
  if dayGap pr.1.1 pr.2.1 ≤ 14 then
    (st.1, st.2.1 ++ mergeFilesP2 walkF pr.2.2 st.1, setAddStr st.2.2 pr.2.2)
  else (pr.2.2, st.2.1, st.2.2)

/-- The per-location loop of `reorganize_by_location` (lines 86–101),
translated as a left fold of `locStep` over consecutive pairs of the
date-sorted list, starting from `target_folder = dirs[0][1]`. -/
def locPass (walkF : String → List (String × List String))
    (dirs : List (Date × String)) (ed0 : List String) : List Move × List String :=
  let sorted := sortStable tupLe dirs
  let init := (sorted.headD (⟨1, 1, 1⟩, "")).2
  let res := (sorted.zip sorted.tail).foldl (locStep walkF) (init, ([] : List Move), ed0)
  (res.2.1, res.2.2)

/-- One location group of `reorganize_by_location`'s outer loop. -/
def rblStep (walkF : String → List (String × List String))
    (acc : List Move × List String) (g : String × List (Date × String)) :
    List Move × List String :=
  let r := locPass walkF g.2 acc.2
  (acc.1 ++ r.1, r.2)

/-- `reorganize_by_location(moves, empty_dirs)` (lines 74–102); the
shared `empty_dirs` set is threaded through the location groups. -/
def reorganizeByLocation (walkF : String → List (String × List String))
    (moves : List Move) (ed : List String) : List Move × List String :=
  (locGroups moves).foldl (rblStep walkF) (([] : List Move), ed)

/-- Modelled from the spec's pass-2 description, for comparison with
`locPass`: walk the date-sorted directories of one location, merging a
directory into the carried-forward anchor when its gap to the previous
directory is within the 14-day window, and making it the new anchor
otherwise.  Returns the merge moves and the list of merged-away
directories. -/
def chainMerge (walkF : String → List (String × List String))
    (anchor : String) (prev : Date) : List (Date × String) → List Move × List String
  | [] => ([], [])
  | (d, f) :: rest =>
    if dayGap prev d ≤ 14 then
      let r := chainMerge walkF anchor d rest
      (mergeFilesP2 walkF f anchor ++ r.1, f :: r.2)
    else chainMerge walkF f d rest

/-- Modelled from the spec: one location group processed by sorting and
chain-merging from the earliest directory as the first anchor. -/
def chainLocPass (walkF : String → List (String × List String))
    (dirs : List (Date × String)) : List Move × List String :=
  match sortStable tupLe dirs with
  | [] => ([], [])
  | first :: rest => chainMerge walkF first.2 first.1 rest

/-- One iteration of `execute_moves` in `reorganize_subfolders.py`
(lines 104–117) in `--prod` mode: only the *source* is checked for
existence; state is `(files, reported errors)`. -/
def execOneRS (st : List String × List String) (mv : Move) :
    List String × List String :=
  if mv.1 ∈ st.1 then (moveModel st.1 mv.1 mv.2.1, st.2)
  else (st.1, st.2 ++ ["Error: Source file not found: " ++ mv.1])

def executeMovesRS (fs : List String) (moves : List Move) :
    List String × List String :=
  moves.foldl execOneRS (fs, [])

/-! The directory-removal loop of `main` (lines 158–167). -/

/-- A filesystem with explicit directories and files (as full paths). -/
structure FS2 where
  dirs : List String
  files : List String
  deriving DecidableEq, Repr

/-- `shutil.rmtree(dir)`: deletes the directory together with *all*
directories and files beneath it, regardless of whether it is empty;
it raises `FileNotFoundError` (an `OSError`) only when `dir` itself
does not exist. -/
def rmtreeModel (fs : FS2) (dirPath : String) : FS2 × Option String :=
  if dirPath ∈ fs.dirs then
    (⟨fs.dirs.filter (fun d => ¬ (d = dirPath ∨ (strStartsWith d (dirPath ++ "/")))),
      fs.files.filter (fun p => ¬ strStartsWith p (dirPath ++ "/"))⟩, none)
  else (fs, some ("Error removing directory " ++ dirPath ++ ": No such file or directory"))

/-- `for dir in empty_dirs: shutil.rmtree(dir)` under `--prod`, with the
`except OSError` clause collecting the error reports. -/
def removeQueuedDirs (fs : FS2) (emptyDirs : List String) : FS2 × List String :=
  emptyDirs.foldl
    (fun acc d =>
      let r := rmtreeModel acc.1 d
      (r.1, match r.2 with | some e => acc.2 ++ [e] | none => acc.2))
    (fs, ([] : List String))

/-! ### Concrete inputs used by the claims -/

/-- The `os.walk` sequence of a source tree holding exactly the three
directories `2024-05-01_Paris`, `2024-05-10_Paris`, `2024-06-01_Paris`,
each with one file. -/
def exWalkDateWindow : List (String × List String × List String) :=
  [("src", ["2024-05-01_Paris", "2024-05-10_Paris", "2024-06-01_Paris"], []),
   ("src/2024-05-01_Paris", [], ["a.jpg"]),
   ("src/2024-05-10_Paris", [], ["b.jpg"]),
   ("src/2024-06-01_Paris", [], ["c.jpg"])]

/-- The per-folder `os.walk` view of the same tree. -/
def exWalkFDateWindow : String → List (String × List String)
  | "src/2024-05-01_Paris" => [("src/2024-05-01_Paris", ["a.jpg"])]
  | "src/2024-05-10_Paris" => [("src/2024-05-10_Paris", ["b.jpg"])]
  | "src/2024-06-01_Paris" => [("src/2024-06-01_Paris", ["c.jpg"])]
  | _ => []

/-- A source tree where the date `2024-05-15` has two directories, one
named bare `2024-05-15` and one named `2024-05-15_Paris`. -/
def exWalkBareDate : List (String × List String × List String) :=
  [("src", ["2024-05-15", "2024-05-15_Paris"], []),
   ("src/2024-05-15", [], ["x.jpg"]),
   ("src/2024-05-15_Paris", [], ["y.jpg"])]

/-- The per-folder `os.walk` view of that tree. -/
def exWalkFBareDate : String → List (String × List String)
  | "src/2024-05-15" => [("src/2024-05-15", ["x.jpg"])]
  | "src/2024-05-15_Paris" => [("src/2024-05-15_Paris", ["y.jpg"])]
  | _ => []

/-! ## Helper lemmas -/

/-- Every probe of the collision loop targets the same directory: the
result is `pjoin targetDir f` for some filename `f` whenever the
starting candidate is. -/
theorem resolveCollision_shape (fs : List String) (td fname : String) :
    ∀ (fuel counter : Nat) (tp : String), (∃ g, tp = pjoin td g) →
      ∃ f, resolveCollision fs td fname fuel counter tp = pjoin td f := by
  intro fuel
  induction fuel with
  | zero => intro counter tp h; simpa [resolveCollision] using h
  | succ n ih =>
    intro counter tp h
    by_cases hmem : tp ∈ fs
    · simpa [resolveCollision, hmem] using
        ih (counter + 1) _ ⟨(splitext fname).1 ++ "_" ++ toString counter ++ (splitext fname).2, rfl⟩
    · simpa [resolveCollision, hmem] using h

/-- A row whose current directory already equals its normalized target
directory never contributes a move (nor does a duplicate, missing or
malformed row). -/
theorem processRow_moves_of_inPlace (fs : List String) (root : String)
    (st : PlanState) (row : Row)
    (h : normpath (pdirname row.filePath) = normpath (targetDirOf root row)) :
    (processRow fs root st row).moves = st.moves := by
  cases hs : row.dupStatus with
  | na => simp [processRow, hs]
  | str s =>
    by_cases hdup : pyLower s = "duplicate"
    · simp [processRow, hs, hdup]
    · by_cases hex : row.filePath ∈ fs
      · simp [processRow, hs, hdup, hex, h]
      · simp [processRow, hs, hdup, hex]

theorem planFold_moves_of_inPlace (fs : List String) (root : String) :
    ∀ (df : List Row) (st : PlanState),
      (∀ r ∈ df, normpath (pdirname r.filePath) = normpath (targetDirOf root r)) →
      (df.foldl (processRow fs root) st).moves = st.moves := by
  intro df
  induction df with
  | nil => intro st _; rfl
  | cons r rest ih =>
    intro st hall
    have h1 := processRow_moves_of_inPlace fs root st r (hall r (by simp))
    have h2 := ih (processRow fs root st r) (fun x hx => hall x (by simp [hx]))
    simpa [List.foldl_cons, h2] using h1

/-- The pass-2 inner loop, folded from state `(target, acc, ed)`,
accumulates exactly the chain-merge moves of the remaining directories. -/
theorem locStep_fold_moves (walkF : String → List (String × List String)) :
    ∀ (rest : List (Date × String)) (prev : Date × String) (target : String)
      (a0 : List Move) (ed0 : List String),
      ((((prev :: rest).zip rest).foldl (locStep walkF) (target, a0, ed0)).2.1 =
        a0 ++ (chainMerge walkF target prev.1 rest).1) := by
  intro rest
  induction rest with
  | nil => intro prev target a0 ed0; simp [chainMerge]
  | cons c rest' ih =>
    intro prev target a0 ed0
    by_cases hg : dayGap prev.1 c.1 ≤ 14
    · simpa [List.zip_cons_cons, locStep, hg, chainMerge] using
        (ih c target (a0 ++ mergeFilesP2 walkF c.2 target) (setAddStr ed0 c.2)).trans
          (by simp [chainMerge, hg])
    · simpa [List.zip_cons_cons, locStep, hg, chainMerge] using
        ih c c.2 a0 ed0

/-- The additional moves of one location group equal the chain merge of
its date-sorted directories, for any incoming `empty_dirs` state. -/
theorem locPass_moves (walkF : String → List (String × List String))
    (dirs : List (Date × String)) (ed0 : List String) :
    (locPass walkF dirs ed0).1 = (chainLocPass walkF dirs).1 := by
  unfold locPass chainLocPass
  cases hs : sortStable tupLe dirs with
  | nil => simp
  | cons first rest =>
    simpa using locStep_fold_moves walkF rest first first.2 [] ed0

theorem rbl_fold_moves (walkF : String → List (String × List String)) :
    ∀ (groups : List (String × List (Date × String))) (a0 : List Move)
      (ed0 : List String),
      (groups.foldl (rblStep walkF) (a0, ed0)).1 =
        a0 ++ groups.flatMap (fun g => (chainLocPass walkF g.2).1) := by
  intro groups
  induction groups with
  | nil => intro a0 ed0; simp
  | cons g rest ih =>
    intro a0 ed0
    simp [List.foldl_cons, rblStep, locPass_moves, ih, List.append_assoc]

/-- A per-entry invariant of association tables, preserved by
`assocAppend` when the appended value satisfies it at its key. -/
def TableInv {κ α : Type} (P : κ → α → Prop) (l : List (κ × List α)) : Prop :=
  ∀ k vs, (k, vs) ∈ l → ∀ v ∈ vs, P k v

theorem tableInv_assocAppend {κ α : Type} [DecidableEq κ]
    {P : κ → α → Prop} {l : List (κ × List α)} {k : κ} {v : α}
    (hl : TableInv P l) (hv : P k v) : TableInv P (assocAppend l k v) := by
  induction l with
  | nil =>
    intro k' vs hmem x hx
    simp [assocAppend] at hmem
    rcases hmem with ⟨rfl, rfl⟩
    simp at hx
    subst hx
    exact hv
  | cons p rest ih =>
    have hrest : TableInv P rest := fun k' vs hm => hl k' vs (by simp [hm])
    have hhead : ∀ v' ∈ p.2, P p.1 v' := fun v' hv' => hl p.1 p.2 (by simp) v' hv'
    intro k' vs hmem x hx
    by_cases hk : p.1 = k
    · rw [show assocAppend (p :: rest) k v = (p.1, p.2 ++ [v]) :: rest by
        simp [assocAppend, hk]] at hmem
      rcases List.mem_cons.mp hmem with heq | hm
      · have hk' : k' = p.1 := congrArg Prod.fst heq
        have hvs : vs = p.2 ++ [v] := congrArg Prod.snd heq
        subst hk'
        subst hvs
        rcases List.mem_append.mp hx with hx1 | hx2
        · exact hhead x hx1
        · simp at hx2
          subst hx2
          subst hk
          exact hv
      · exact hrest k' vs hm x hx
    · rw [show assocAppend (p :: rest) k v = p :: assocAppend rest k v by
        simp [assocAppend, hk]] at hmem
      rcases List.mem_cons.mp hmem with heq | hm
      · have hk' : k' = p.1 := congrArg Prod.fst heq
        have hvs : vs = p.2 := congrArg Prod.snd heq
        subst hk'
        subst hvs
        exact hhead x hx
      · exact ih hrest k' vs hm x hx

/-- A character list whose `(· ≠ '_')`-prefix is proper contains an
underscore. -/
theorem hasUnderscore_of_takeWhile_ne :
    ∀ l : List Char, (l.takeWhile (fun c => c ≠ '_')).length ≠ l.length →
      hasSub ['_'] l = true := by
  intro l
  induction l with
  | nil => intro h; simp [List.takeWhile] at h
  | cons c t ih =>
    intro h
    by_cases hc : c = '_'
    · subst hc
      simp [hasSub, subAt]
    · have : (t.takeWhile (fun c => c ≠ '_')).length ≠ t.length := by
        simpa [List.takeWhile, hc] using h
      simp [hasSub, ih this]

/-- A successfully parsed directory name contains an underscore. -/
theorem parseDirectoryName_has_underscore (s : String) (d : Date) (loc : String)
    (h : parseDirectoryName s = some (d, loc)) : strHasSub s "_" = true := by
  by_cases hlen :
      (s.toList.takeWhile (fun c => c ≠ '_')).length = s.toList.length
  · unfold parseDirectoryName at h
    rw [if_pos hlen] at h
    exact Option.noConfusion h
  · exact hasUnderscore_of_takeWhile_ne s.toList hlen

/-- Every registration performed by `registerDir` preserves a table
invariant built from parsable, location-suffixed directory names. -/
theorem tableInv_registerDir
    {P : Date → String → Prop}
    (hP : ∀ root dirName d loc, parseDirectoryName dirName = some (d, loc) →
      loc ≠ "" → P d (pjoin root dirName))
    (root : String) :
    ∀ (dirs : List String) (acc : List (Date × List String)),
      TableInv P acc → TableInv P (dirs.foldl (registerDir root) acc) := by
  intro dirs
  induction dirs with
  | nil => intro acc h; exact h
  | cons dn rest ih =>
    intro acc h
    rw [List.foldl_cons]
    refine ih _ ?_
    unfold registerDir
    cases hp : parseDirectoryName dn with
    | none => exact h
    | some pr =>
      by_cases hloc : pr.2 ≠ ""
      · simpa [hloc] using tableInv_assocAppend h (hP root dn pr.1 pr.2 (by simpa using hp) hloc)
      · simpa [hloc] using h

theorem tableInv_findSubfoldersAux
    {P : Date → String → Prop}
    (hP : ∀ root dirName d loc, parseDirectoryName dirName = some (d, loc) →
      loc ≠ "" → P d (pjoin root dirName)) :
    ∀ (walk : List (String × List String × List String))
      (acc : List (Date × List String)),
      TableInv P acc → TableInv P (findSubfoldersAux walk acc) := by
  intro walk
  induction walk with
  | nil => intro acc h; exact h
  | cons e rest ih =>
    intro acc h
    exact ih _ (tableInv_registerDir hP e.1 e.2.1 acc h)

/-! ## Claim theorems -/

/-- Claim C1: the spec asserts that no two planned moves share a
destination because collision resolution checks both the filesystem and
the destinations already allocated in the plan.  The code checks only
`os.path.exists`: two files both named `a.jpg`, dated `2024-01-01`, in
different source directories, with no pre-existing target file, are both
planned to `out/2024/2024-01-01/a.jpg` — the destination list of the
produced plan is not duplicate-free. -/
theorem C1_plan_duplicate_destinations :
    (planFileMoves ["p/a.jpg", "q/a.jpg"] "out"
        [⟨"p/a.jpg", ⟨2024, 1, 1⟩, Cell.str "ok", Cell.na, Cell.na⟩,
         ⟨"q/a.jpg", ⟨2024, 1, 1⟩, Cell.str "ok", Cell.na, Cell.na⟩]).moves =
      [("p/a.jpg", "out/2024/2024-01-01/a.jpg", "ok"),
       ("q/a.jpg", "out/2024/2024-01-01/a.jpg", "ok")] ∧
    ¬ ((planFileMoves ["p/a.jpg", "q/a.jpg"] "out"
        [⟨"p/a.jpg", ⟨2024, 1, 1⟩, Cell.str "ok", Cell.na, Cell.na⟩,
         ⟨"q/a.jpg", ⟨2024, 1, 1⟩, Cell.str "ok", Cell.na, Cell.na⟩]).moves.map
          (fun m => m.2.1)).Nodup := by
  decide

/-- Claim C2: the spec asserts a queued directory is deleted only when
actually empty, and a non-empty one is reported, never force-deleted.
The code calls `shutil.rmtree`, which removes a *non-empty* directory
together with its contents and raises no `OSError` for it: on a
filesystem where queued directory `d` still holds `d/leftover.jpg`, the
deletion loop removes `d` and the leftover file and reports nothing. -/
theorem C2_rmtree_removes_nonempty_directory :
    let fs : FS2 := ⟨["d", "x"], ["d/leftover.jpg", "x/a.jpg"]⟩
    (strStartsWith "d/leftover.jpg" ("d" ++ "/") = true ∧
      "d/leftover.jpg" ∈ fs.files) ∧
    removeQueuedDirs fs ["d"] = (⟨["x"], ["x/a.jpg"]⟩, []) := by
  decide

/-- Claim C3: three files named `a.jpg` with sizes 100, 100, 200 scanned
in that order are classified `ok`, `duplicate`, `error`; planning the
third file with its assigned `error` status renames the destination
filename to `a_dup.jpg` (suffix `_dup` before the extension). -/
theorem C3_scan_statuses_and_dup_suffix :
    (scanStatuses [("a.jpg", 100), ("a.jpg", 100), ("a.jpg", 200)]).1 =
      ["ok", "duplicate", "error"] ∧
    (planFileMoves ["scan/a.jpg"] "out"
        [⟨"scan/a.jpg", ⟨2024, 1, 1⟩,
          Cell.str ((scanStatuses [("a.jpg", 100), ("a.jpg", 100), ("a.jpg", 200)]).1.getD 2 ""),
          Cell.na, Cell.na⟩]).moves =
      [("scan/a.jpg", "out/2024/2024-01-01/a_dup.jpg", "error")] := by
  decide

/-- Claim C5, counterexample: with destination `b/x.jpg` already present
on the filesystem, the `reorganize_media` executor performs the move
anyway — one success, no failures, no error report — and the prior
destination content is replaced (`a/x.jpg`'s bytes end up at `b/x.jpg`).
It does not "detect the violation and fail loudly instead of performing
the move". -/
theorem C5_executor_overwrites_existing_destination :
    "b/x.jpg" ∈ ["a/x.jpg", "b/x.jpg"] ∧
    executeMovesRM ["a/x.jpg", "b/x.jpg"] [("a/x.jpg", "b/x.jpg", "ok")] =
      ⟨["b/x.jpg"], 1, 0, 0, []⟩ := by
  decide

/-- Claim C5, amended: neither executor checks whether the destination
exists.  Any move whose source exists (and, for `reorganize_media`,
whose normalized source and target directories differ) is executed
unconditionally and counted successful with no error, the filesystem
afterwards being `moveModel fs s t` — which silently replaces any
pre-existing destination file. -/
theorem C5_amended_no_destination_check (fs : List String) (s t status : String)
    (hdir : normpath (pdirname s) ≠ normpath (pdirname t)) (hs : s ∈ fs) :
    executeMovesRM fs [(s, t, status)] = ⟨moveModel fs s t, 1, 0, 0, []⟩ ∧
    executeMovesRS fs [(s, t, status)] = (moveModel fs s t, []) := by
  unfold executeMovesRM executeMovesRS
  simp [List.foldl_cons, execOneRM, execOneRS, hdir, hs]

theorem C5_amended_no_destination_check_witness :
    executeMovesRM ["a/x.jpg", "b/x.jpg"] [("a/x.jpg", "b/x.jpg", "ok")] =
      ⟨moveModel ["a/x.jpg", "b/x.jpg"] "a/x.jpg" "b/x.jpg", 1, 0, 0, []⟩ ∧
    executeMovesRS ["a/x.jpg", "b/x.jpg"] [("a/x.jpg", "b/x.jpg", "ok")] =
      (moveModel ["a/x.jpg", "b/x.jpg"] "a/x.jpg" "b/x.jpg", []) :=
  C5_amended_no_destination_check ["a/x.jpg", "b/x.jpg"] "a/x.jpg" "b/x.jpg" "ok"
    (by decide) (by decide)

/-- Claim C6, counterexample: a file of 4097 bytes is within `2N` for
the default `N = 4096`, yet its fingerprint input is only the first 4096
bytes, not the full content (the last-chunk read happens only above
`2N`, so sizes in `(N, 2N]` hash a strict prefix). -/
theorem C6_quick_hash_not_full_content_below_2N :
    (List.replicate 4097 (1 : Nat)).length ≤ 2 * 4096 ∧
    quickHashInput (List.replicate 4097 (1 : Nat)) 4096 ≠
      List.replicate 4097 (1 : Nat) := by
  constructor
  · simp only [List.length_replicate]
    norm_num
  · intro h
    have hlen : (quickHashInput (List.replicate 4097 (1 : Nat)) 4096).length = 4096 := by
      simp only [quickHashInput, List.length_replicate]
      rw [if_neg (by norm_num)]
      simp only [List.length_take, List.length_replicate]
      omega
    rw [h] at hlen
    simp only [List.length_replicate] at hlen
    exact absurd hlen (by norm_num)

/-- Claim C6, amended: the fingerprint input is the full content only
for files of at most `N` bytes; for sizes in `(N, 2N]` it is the first
`N` bytes alone, and for sizes above `2N` it is the first `N` bytes
concatenated with the last `N` bytes. -/
theorem C6_amended_quick_hash_cases (content : List Nat) (chunk : Nat) :
    (content.length ≤ chunk → quickHashInput content chunk = content) ∧
    (chunk < content.length → content.length ≤ 2 * chunk →
      quickHashInput content chunk = content.take chunk) ∧
    (2 * chunk < content.length →
      quickHashInput content chunk = content.take chunk ++
        content.drop (content.length - chunk)) := by
  refine ⟨fun h => ?_, fun h1 h2 => ?_, fun h => ?_⟩
  · have hc : ¬ content.length > chunk * 2 := by omega
    simp [quickHashInput, hc, List.take_of_length_le h]
  · have hc : ¬ content.length > chunk * 2 := by omega
    simp [quickHashInput, hc]
  · have hc : content.length > chunk * 2 := by omega
    simp [quickHashInput, hc]

theorem C6_amended_quick_hash_cases_witness :
    quickHashInput [1, 2] 2 = [1, 2] ∧
    quickHashInput [1, 2, 3] 2 = [1, 2] ∧
    quickHashInput [1, 2, 3] 1 = [1, 3] :=
  ⟨(C6_amended_quick_hash_cases [1, 2] 2).1 (by decide),
   ((C6_amended_quick_hash_cases [1, 2, 3] 2).2.1 (by decide) (by decide)).trans (by decide),
   ((C6_amended_quick_hash_cases [1, 2, 3] 1).2.2 (by decide)).trans (by decide)⟩

/-- Claim C4, counterexample: on the tree holding exactly
`2024-05-01_Paris`, `2024-05-10_Paris` and `2024-06-01_Paris`, pass 1
plans no moves (each date has a single directory), and the cross-date
pass — which only examines directories appearing as *targets of pass-1
moves* — therefore plans no moves either: `2024-05-10_Paris` is *not*
merged into `2024-05-01_Paris`, contrary to the claim. -/
theorem C4_example_produces_no_cross_date_merge :
    let p1 := planMovesRS exWalkFDateWindow (findSubfoldersToMerge exWalkDateWindow)
    let p2 := reorganizeByLocation exWalkFDateWindow p1.1 p1.2
    p1.1 = [] ∧ p2.1 = [] ∧
    ("src/2024-05-10_Paris/b.jpg", "src/2024-05-01_Paris/b.jpg",
      "src/2024-05-01_Paris") ∉ p2.1 := by
  decide

/-- Claim C4, amended: the cross-date pass groups by location only the
directories that appear as targets of pass-1 moves; for each location it
sorts them by date ascending and merges a directory into the
carried-forward anchor when its gap to the previous directory is at most
14 days, the directory becoming the new anchor otherwise (this is the
chain-merge recursion `chainLocPass`).  On the example tree, pass 1
plans no moves, so the cross-date pass merges nothing. -/
theorem C4_amended_pass2_chain_over_move_targets :
    (∀ (walkF : String → List (String × List String)) (moves : List Move)
       (ed : List String),
       (reorganizeByLocation walkF moves ed).1 =
         (locGroups moves).flatMap (fun g => (chainLocPass walkF g.2).1)) ∧
    (planMovesRS exWalkFDateWindow (findSubfoldersToMerge exWalkDateWindow)).1 = [] := by
  constructor
  · intro walkF moves ed
    simpa [reorganizeByLocation] using rbl_fold_moves walkF (locGroups moves) [] ed
  · decide

/-- Claim C7: every planned move's destination lies in
`root/year/dateSegment`, where the date segment carries `_{city}` when
the city is known, additionally carries the (stripped) country between
date and city when the country is known and differs case-insensitively
from the home country `france`, and is the bare date when the city is
unknown — so domestic trips omit the country label and foreign trips
include it. -/
theorem C7_destination_directory_layout (fs : List String) (root : String)
    (row : Row) (s : String)
    (hst : row.dupStatus = Cell.str s)
    (hnd : pyLower s ≠ "duplicate")
    (hex : row.filePath ∈ fs)
    (hmv : normpath (pdirname row.filePath) ≠ normpath (targetDirOf root row)) :
    (∃ fname, (planFileMoves fs root [row]).moves =
        [(row.filePath, pjoin (targetDirOf root row) fname, pyLower s)]) ∧
    targetDirOf root row =
      pjoin (pjoin root (toString row.photoDate.y))
        (match row.city, row.country with
         | Cell.str c, Cell.str k =>
           if pyLower (pyStrip k) ≠ "france" then
             fmtDate row.photoDate ++ "_" ++ pyStrip k ++ "_" ++ pyStrip c
           else fmtDate row.photoDate ++ "_" ++ pyStrip c
         | Cell.str c, Cell.na => fmtDate row.photoDate ++ "_" ++ pyStrip c
         | Cell.na, _ => fmtDate row.photoDate) := by
  constructor
  · by_cases herr : pyLower s = "error"
    · obtain ⟨f, hf⟩ := resolveCollision_shape fs (targetDirOf root row)
        ((splitext (pbasename row.filePath)).1 ++ "_dup" ++ (splitext (pbasename row.filePath)).2)
        (fs.length + 1) 1
        (pjoin (targetDirOf root row)
          ((splitext (pbasename row.filePath)).1 ++ "_dup" ++ (splitext (pbasename row.filePath)).2))
        ⟨_, rfl⟩
      exact ⟨f, by simp [planFileMoves, processRow, hst, hnd, hex, hmv, herr, hf]⟩
    · obtain ⟨f, hf⟩ := resolveCollision_shape fs (targetDirOf root row)
        (pbasename row.filePath) (fs.length + 1) 1
        (pjoin (targetDirOf root row) (pbasename row.filePath)) ⟨_, rfl⟩
      exact ⟨f, by simp [planFileMoves, processRow, hst, hnd, hex, hmv, herr, hf]⟩
  · cases hc : row.city <;> cases hk : row.country <;>
      simp [targetDirOf, dateDirSegment, hc, hk]

theorem C7_destination_directory_layout_witness :
    (∃ fname, (planFileMoves ["p/a.jpg"] "out"
        [⟨"p/a.jpg", ⟨2024, 5, 1⟩, Cell.str "ok", Cell.str " Spain ", Cell.str "Madrid"⟩]).moves =
        [("p/a.jpg",
          pjoin (targetDirOf "out"
            ⟨"p/a.jpg", ⟨2024, 5, 1⟩, Cell.str "ok", Cell.str " Spain ", Cell.str "Madrid"⟩) fname,
          pyLower "ok")]) ∧
    targetDirOf "out"
        ⟨"p/a.jpg", ⟨2024, 5, 1⟩, Cell.str "ok", Cell.str " Spain ", Cell.str "Madrid"⟩ =
      pjoin (pjoin "out" (toString (2024 : Nat)))
        (if pyLower (pyStrip " Spain ") ≠ "france" then
           fmtDate ⟨2024, 5, 1⟩ ++ "_" ++ pyStrip " Spain " ++ "_" ++ pyStrip "Madrid"
         else fmtDate ⟨2024, 5, 1⟩ ++ "_" ++ pyStrip "Madrid") :=
  C7_destination_directory_layout ["p/a.jpg"] "out"
    ⟨"p/a.jpg", ⟨2024, 5, 1⟩, Cell.str "ok", Cell.str " Spain ", Cell.str "Madrid"⟩ "ok"
    rfl (by decide) (by decide) (by decide)

/-- Claim C8, counterexample: a directory named bare `2024-05-15` is not
accepted as a merge candidate (`parse_directory_name` returns
`(None, None)` for names without an underscore).  On a tree where the
date `2024-05-15` has two directories, `2024-05-15` and
`2024-05-15_Paris`, only the suffixed one is registered, so the date has
a single candidate and no same-date merge is planned at all — and no
"first directory found" fallback selection ever happens. -/
theorem C8_bare_date_dirs_not_candidates :
    parseDirectoryName "2024-05-15" = none ∧
    findSubfoldersToMerge exWalkBareDate = [(⟨2024, 5, 15⟩, ["src/2024-05-15_Paris"])] ∧
    planMovesRS exWalkFBareDate (findSubfoldersToMerge exWalkBareDate) = ([], []) := by
  decide

/-- Claim C8, amended: only directories whose name splits at the first
underscore into a parsable `YYYY-MM-DD` date and a non-empty location
are merge candidates; every directory registered under a date parses to
exactly that date, and its name contains an underscore — so bare
`YYYY-MM-DD` directories never participate and the final
"first directory found" fallback of the target selection (reached only
when no candidate's basename contains `_`) is unreachable. -/
theorem C8_amended_only_suffixed_dirs_registered
    (walk : List (String × List String × List String)) :
    TableInv (fun d f => ∃ root dirName loc,
      f = pjoin root dirName ∧ parseDirectoryName dirName = some (d, loc) ∧
      loc ≠ "" ∧ strHasSub dirName "_" = true) (findSubfoldersToMerge walk) := by
  refine tableInv_findSubfoldersAux ?_ walk [] ?_
  · intro root dirName d loc hp hloc
    exact ⟨root, dirName, loc, rfl, hp, hloc,
      parseDirectoryName_has_underscore dirName d loc hp⟩
  · intro k vs hmem
    simp at hmem

theorem C8_amended_only_suffixed_dirs_registered_witness :
    ∃ root dirName loc,
      "src/2024-05-15_Paris" = pjoin root dirName ∧
      parseDirectoryName dirName = some (⟨2024, 5, 15⟩, loc) ∧
      loc ≠ "" ∧ strHasSub dirName "_" = true :=
  C8_amended_only_suffixed_dirs_registered exWalkBareDate
    ⟨2024, 5, 15⟩ ["src/2024-05-15_Paris"] (by decide)
    "src/2024-05-15_Paris" (by decide)

/-- Claim C9: a row whose normalized current directory equals its
normalized computed target directory is recorded as skipped — its status
is counted, the `skipped` counter is bumped, and no move and no error is
queued — and this happens before any filename modification (the `error`
status rename included, since the conclusion holds for any non-duplicate
status).  Consequently a plan over rows that are all already in place
contains zero moves. -/
theorem C9_in_place_rows_are_skipped (fs : List String) (root : String)
    (st : PlanState) (row : Row) (s : String)
    (hst : row.dupStatus = Cell.str s)
    (hnd : pyLower s ≠ "duplicate")
    (hex : row.filePath ∈ fs)
    (heq : normpath (pdirname row.filePath) = normpath (targetDirOf root row)) :
    processRow fs root st row =
      { st with counts := bump (bump st.counts (pyLower s)) "skipped" } ∧
    ∀ df : List Row,
      (∀ r ∈ df, normpath (pdirname r.filePath) = normpath (targetDirOf root r)) →
      (planFileMoves fs root df).moves = [] := by
  constructor
  · simp [processRow, hst, hnd, hex, heq]
  · intro df hall
    exact planFold_moves_of_inPlace fs root df ⟨[], [], initCounts⟩ hall

theorem C9_in_place_rows_are_skipped_witness :
    processRow ["out/2024/2024-01-01/a.jpg"] "out" ⟨[], [], initCounts⟩
        ⟨"out/2024/2024-01-01/a.jpg", ⟨2024, 1, 1⟩, Cell.str "error", Cell.na, Cell.na⟩ =
      { moves := [], errors := [],
        counts := bump (bump initCounts (pyLower "error")) "skipped" } ∧
    (planFileMoves ["out/2024/2024-01-01/a.jpg"] "out"
        [⟨"out/2024/2024-01-01/a.jpg", ⟨2024, 1, 1⟩, Cell.str "error", Cell.na, Cell.na⟩]).moves
      = [] :=
  have h := C9_in_place_rows_are_skipped ["out/2024/2024-01-01/a.jpg"] "out"
    ⟨[], [], initCounts⟩
    ⟨"out/2024/2024-01-01/a.jpg", ⟨2024, 1, 1⟩, Cell.str "error", Cell.na, Cell.na⟩
    "error" rfl (by decide) (by decide) (by decide)
  ⟨h.1, h.2 [⟨"out/2024/2024-01-01/a.jpg", ⟨2024, 1, 1⟩, Cell.str "error", Cell.na, Cell.na⟩]
    (by decide)⟩

/-- Claim C10: a row whose string status lowercases to anything other
than `duplicate` or `error` — arbitrary unknown values included — is
planned as a normal move keeping the original filename (no `_dup`
suffix), and a row whose status cell is not a string is recorded as a
planning error, contributes no move, and the fold continues with the
remaining rows from the error-extended state. -/
theorem C10_unknown_status_normal_move_nonstring_error
    (fs : List String) (root : String) (st : PlanState) (row : Row) :
    (∀ s, row.dupStatus = Cell.str s →
      pyLower s ≠ "duplicate" → pyLower s ≠ "error" →
      row.filePath ∈ fs →
      normpath (pdirname row.filePath) ≠ normpath (targetDirOf root row) →
      pjoin (targetDirOf root row) (pbasename row.filePath) ∉ fs →
      processRow fs root st row =
        { st with counts := bump st.counts (pyLower s),
                  moves := st.moves ++
                    [(row.filePath,
                      pjoin (targetDirOf root row) (pbasename row.filePath),
                      pyLower s)] }) ∧
    (row.dupStatus = Cell.na →
      processRow fs root st row =
        { st with errors := st.errors ++
            ["Error processing " ++ row.filePath ++
              ": 'float' object has no attribute 'lower'"] } ∧
      ∀ rest : List Row,
        (row :: rest).foldl (processRow fs root) st =
          rest.foldl (processRow fs root)
            { st with errors := st.errors ++
                ["Error processing " ++ row.filePath ++
                  ": 'float' object has no attribute 'lower'"] }) := by
  constructor
  · intro s hst hnd herr hex hmv hfree
    simp [processRow, hst, hnd, herr, hex, hmv, resolveCollision, hfree]
  · intro hna
    have h1 : processRow fs root st row =
        { st with errors := st.errors ++
            ["Error processing " ++ row.filePath ++
              ": 'float' object has no attribute 'lower'"] } := by
      simp [processRow, hna]
    exact ⟨h1, fun rest => by rw [List.foldl_cons, h1]⟩

theorem C10_unknown_status_normal_move_nonstring_error_witness :
    processRow ["p/a.jpg"] "out" ⟨[], [], initCounts⟩
        ⟨"p/a.jpg", ⟨2024, 1, 1⟩, Cell.str "MyStatus", Cell.na, Cell.na⟩ =
      { moves := [] ++
          [("p/a.jpg",
            pjoin (targetDirOf "out"
              ⟨"p/a.jpg", ⟨2024, 1, 1⟩, Cell.str "MyStatus", Cell.na, Cell.na⟩)
              (pbasename "p/a.jpg"),
            pyLower "MyStatus")],
        errors := [], counts := bump initCounts (pyLower "MyStatus") } ∧
    processRow ["p/a.jpg"] "out" ⟨[], [], initCounts⟩
        ⟨"p/a.jpg", ⟨2024, 1, 1⟩, Cell.na, Cell.na, Cell.na⟩ =
      { moves := [], counts := initCounts,
        errors := [] ++
          ["Error processing " ++ "p/a.jpg" ++
            ": 'float' object has no attribute 'lower'"] } :=
  ⟨(C10_unknown_status_normal_move_nonstring_error ["p/a.jpg"] "out" ⟨[], [], initCounts⟩
      ⟨"p/a.jpg", ⟨2024, 1, 1⟩, Cell.str "MyStatus", Cell.na, Cell.na⟩).1
    "MyStatus" rfl (by decide) (by decide) (by decide) (by decide) (by decide),
   ((C10_unknown_status_normal_move_nonstring_error ["p/a.jpg"] "out" ⟨[], [], initCounts⟩
      ⟨"p/a.jpg", ⟨2024, 1, 1⟩, Cell.na, Cell.na, Cell.na⟩).2 rfl).1⟩

end MediaInv
